import Mathlib

/-!
Shallow embedding of the SP TLS transport (src/src/sp/transport/tls/tls.c)
and proofs about its negotiation, framing, matching, backoff and lifecycle
logic.  Byte values are `Nat` restricted by construction to `< 256` where it
matters; machine 64-bit arithmetic is modelled with explicit `% 2^64`.
-/

set_option autoImplicit false

namespace NngTls

/-! ### Error codes

Numeric values are those of the public `nng.h` header of this library (the
header itself is not part of this source slice); the proofs below depend only
on the codes being pairwise distinct. -/

def NNG_ENOMEM : Nat := 2
def NNG_EBUSY : Nat := 4
def NNG_ETIMEDOUT : Nat := 5
def NNG_ECLOSED : Nat := 7
def NNG_EPROTO : Nat := 13
def NNG_EMSGSIZE : Nat := 17
def NNG_ENOFILES : Nat := 21
def NNG_ECONNSHUT : Nat := 31

/-! ### Byte-order helpers (`NNI_GET16`, `NNI_GET64`, `NNI_PUT64`) -/

/-- Big-endian 16-bit decode of two bytes, as `NNI_GET16(&rxlen[4], p->peer)`
does in `tlstran_pipe_nego_cb`. -/
def NNI_GET16 (b4 b5 : Nat) : Nat := b4 * 256 + b5

/-- Big-endian 64-bit decode of a byte list, as `NNI_GET64(p->rxlen, len)`
does in `tlstran_pipe_recv_cb`. -/
def NNI_GET64 (bytes : List Nat) : Nat :=
  bytes.foldl (fun acc b => acc * 256 + b) 0

/-- Big-endian 64-bit encode of a value into 8 bytes, as
`NNI_PUT64(p->txlen, len)` does in `tlstran_pipe_send_start`.  The C value is
a `uint64_t`; each extracted byte only depends on `n % 2^64`. -/
def NNI_PUT64 (n : Nat) : List Nat :=
  [n / 2 ^ 56 % 256, n / 2 ^ 48 % 256, n / 2 ^ 40 % 256, n / 2 ^ 32 % 256,
    n / 2 ^ 24 % 256, n / 2 ^ 16 % 256, n / 2 ^ 8 % 256, n % 256]

/-! ### Negotiation header check (`tlstran_pipe_nego_cb`, lines 257-266)

Once all 8 header bytes have been sent and received, the callback checks the
fixed positions of the received buffer and extracts the peer protocol id.
`'S' = 83`, `'P' = 80`. -/

/-- Final header check of `tlstran_pipe_nego_cb`: bytes 0,1,2,3,6,7 must be
`0, 'S', 'P', 0, 0, 0`; on success the peer id is the big-endian word at
positions 4-5, on mismatch the result is `NNG_EPROTO`. -/
def tlstran_nego_check (b0 b1 b2 b3 b4 b5 b6 b7 : Nat) : Except Nat Nat :=
  if b0 ≠ 0 ∨ b1 ≠ 83 ∨ b2 ≠ 80 ∨ b3 ≠ 0 ∨ b6 ≠ 0 ∨ b7 ≠ 0 then
    Except.error NNG_EPROTO
  else
    Except.ok (NNI_GET16 b4 b5)

/-! ### Outgoing framing (`tlstran_pipe_send_start`, lines 466-503) -/

/-- A user message: separate header and body byte lists, as `nni_msg` exposes
them to the transport. -/
structure Msg where
  header : List Nat
  body : List Nat
deriving DecidableEq

/-- Iov list built by `tlstran_pipe_send_start` for the head of the send
queue: the 8-byte big-endian length prefix of `nni_msg_len + nni_msg_header_len`,
then the header iov if non-empty, then the body iov if non-empty; `none` when
the send queue is empty (no transfer is started). -/
def tlstran_pipe_send_start (sendq : List (Nat × Msg)) : Option (List (List Nat)) :=
  match sendq with
  | [] => none
  | (_, msg) :: _ =>
    some ([NNI_PUT64 (msg.body.length + msg.header.length)] ++
      (if 0 < msg.header.length then [msg.header] else []) ++
      (if 0 < msg.body.length then [msg.body] else []))

/-! ### Endpoint state machine (`tlstran_ep`)

The fields of `struct tlstran_ep` that the accept/connect/match logic reads
and writes: the `closed` and `started` flags, the configured `rcvmax`, the
single user-facing aio slot, and the three pipe lists.  Aios are identified
by numbers; a pipe carries its id and its `rcvmax` field. -/

/-- A transport pipe as seen from the endpoint lists: its identity and its
`rcvmax` field (the field `tlstran_ep_match` copies the endpoint value onto). -/
structure EpPipe where
  pid : Nat
  rcvmax : Nat
deriving DecidableEq

/-- A completion delivered to a user aio: `nni_aio_finish` /
`nni_aio_finish_error` with result `rv`, plus the pipe stored in output
slot 0 when there is one. -/
structure Comp where
  aio : Nat
  rv : Nat
  outPipe : Option EpPipe
deriving DecidableEq

/-- The endpoint fields driven by accept/connect/match/close. -/
structure EpState where
  closed : Bool
  started : Bool
  rcvmax : Nat
  useraio : Option Nat
  negopipes : List EpPipe
  waitpipes : List EpPipe
  busypipes : List EpPipe
deriving DecidableEq

/-- Body of `tlstran_ep_match` (lines 199-215): a no-op unless a user aio is
posted and the waiting list is non-empty; otherwise the first waiting pipe
moves to the busy list, the user slot is cleared, the endpoint `rcvmax` is
copied onto the pipe, and the aio is finished successfully with the pipe in
output slot 0. -/
def tlstran_ep_match (ep : EpState) : EpState × List Comp :=
  match ep.useraio, ep.waitpipes with
  | some aio, p :: rest =>
    ({ ep with
        waitpipes := rest,
        busypipes := ep.busypipes ++ [{ p with rcvmax := ep.rcvmax }],
        useraio := none },
      [⟨aio, 0, some { p with rcvmax := ep.rcvmax }⟩])
  | _, _ => (ep, [])

/-- Body of `tlstran_ep_connect` (lines 940-970): closed endpoints refuse
with `NNG_ECLOSED`; an occupied user slot refuses with `NNG_EBUSY`; otherwise
the aio takes the slot (and the stream dial is posted). -/
def tlstran_ep_connect (ep : EpState) (aio : Nat) : EpState × List Comp :=
  if ep.closed then (ep, [⟨aio, NNG_ECLOSED, none⟩])
  else if ep.useraio.isSome then (ep, [⟨aio, NNG_EBUSY, none⟩])
  else ({ ep with useraio := some aio }, [])

/-- Body of `tlstran_ep_accept` (lines 985-1018): as for connect, but the
first accept starts the listener loop and later accepts try the matcher. -/
def tlstran_ep_accept (ep : EpState) (aio : Nat) : EpState × List Comp :=
  if ep.closed then (ep, [⟨aio, NNG_ECLOSED, none⟩])
  else if ep.useraio.isSome then (ep, [⟨aio, NNG_EBUSY, none⟩])
  else if ep.started then
    tlstran_ep_match { ep with useraio := some aio }
  else
    ({ ep with useraio := some aio, started := true }, [])

/-- Body of `tlstran_ep_close` (lines 655-685) restricted to the modelled
fields: sets `closed` and fails any outstanding user aio with `NNG_ECLOSED`. -/
def tlstran_ep_close (ep : EpState) : EpState × List Comp :=
  match ep.useraio with
  | some a => ({ ep with closed := true, useraio := none }, [⟨a, NNG_ECLOSED, none⟩])
  | none => ({ ep with closed := true }, [])

/-- Body of `tlstran_ep_cancel` (lines 928-938): clears the slot and fails
the aio with the supplied `rv`, but only if that very aio still occupies it. -/
def tlstran_ep_cancel (ep : EpState) (aio rv : Nat) : EpState × List Comp :=
  if ep.useraio = some aio then ({ ep with useraio := none }, [⟨aio, rv, none⟩])
  else (ep, [])

/-- Error arm of `tlstran_pipe_nego_cb` (lines 278-294): `NNG_ECLOSED` is
rewritten to `NNG_ECONNSHUT`, the pipe leaves the negotiating list, and the
outstanding user aio (if any) is failed with the rewritten code. -/
def tlstran_nego_error (ep : EpState) (p : EpPipe) (rv : Nat) : EpState × List Comp :=
  let rv2 := if rv = NNG_ECLOSED then NNG_ECONNSHUT else rv
  match ep.useraio with
  | some u =>
    ({ ep with negopipes := ep.negopipes.erase p, useraio := none }, [⟨u, rv2, none⟩])
  | none => ({ ep with negopipes := ep.negopipes.erase p }, [])

/-- Success arm of `tlstran_pipe_nego_cb` (lines 266-276): the pipe moves
from the negotiating list to the waiting list and the matcher runs. -/
def tlstran_nego_success (ep : EpState) (p : EpPipe) : EpState × List Comp :=
  tlstran_ep_match
    { ep with negopipes := ep.negopipes.erase p, waitpipes := ep.waitpipes ++ [p] }

/-- What the error arm of `tlstran_accept_cb` does after completing the user
aio: back off 10 ms, repost the accept, or nothing. -/
inductive AcceptAct where
  | backoff10ms
  | repostAccept
  | idle
deriving DecidableEq

/-- Error arm of `tlstran_accept_cb` (lines 728-752): the outstanding user
aio, if any, is failed with the error; then `NNG_ENOMEM`/`NNG_ENOFILES` arm
the 10 ms sleep aio while every other error reposts the accept unless the
endpoint is closed. -/
def tlstran_accept_error (ep : EpState) (rv : Nat) : EpState × List Comp × AcceptAct :=
  let eo : EpState × List Comp :=
    match ep.useraio with
    | some u => ({ ep with useraio := none }, [⟨u, rv, none⟩])
    | none => (ep, [])
  let act : AcceptAct :=
    if rv = NNG_ENOMEM ∨ rv = NNG_ENOFILES then AcceptAct.backoff10ms
    else if ep.closed then AcceptAct.idle
    else AcceptAct.repostAccept
  (eo.1, eo.2, act)

/-- Success arm of `tlstran_accept_cb` / `tlstran_dial_cb`: the new pipe is
started, which appends it to the negotiating list (`tlstran_pipe_start`,
line 626). -/
def tlstran_pipe_start_ep (ep : EpState) (p : EpPipe) : EpState :=
  { ep with negopipes := ep.negopipes ++ [p] }

/-- Body of `tlstran_timer_cb` (lines 687-694): the accept is reposted iff
the sleep aio completed without error. -/
def tlstran_timer_cb (rv : Nat) : Bool := rv == 0

/-- Operations that can touch the modelled endpoint fields. -/
inductive EpOp where
  | connect (aio : Nat)
  | accept (aio : Nat)
  | close
  | cancel (aio rv : Nat)
  | negoSuccess (p : EpPipe)
  | negoFail (p : EpPipe) (rv : Nat)
  | acceptFail (rv : Nat)
  | acceptDone (p : EpPipe)

/-- State part of one endpoint operation. -/
def epStep (op : EpOp) (ep : EpState) : EpState :=
  match op with
  | EpOp.connect a => (tlstran_ep_connect ep a).1
  | EpOp.accept a => (tlstran_ep_accept ep a).1
  | EpOp.close => (tlstran_ep_close ep).1
  | EpOp.cancel a rv => (tlstran_ep_cancel ep a rv).1
  | EpOp.negoSuccess p => (tlstran_nego_success ep p).1
  | EpOp.negoFail p rv => (tlstran_nego_error ep p rv).1
  | EpOp.acceptFail rv => (tlstran_accept_error ep rv).1
  | EpOp.acceptDone p => tlstran_pipe_start_ep ep p

/-- The state of a freshly initialised endpoint (`tlstran_ep_init`), with a
configured receive maximum `m` (`tlstran_ep_set_recvmaxsz`). -/
def epInit (m : Nat) : EpState :=
  { closed := false, started := false, rcvmax := m, useraio := none,
    negopipes := [], waitpipes := [], busypipes := [] }

/-- Endpoint states reachable from initialisation through the modelled
operations. -/
inductive EpReach : EpState → Prop where
  | init (m : Nat) : EpReach (epInit m)
  | step (op : EpOp) {s : EpState} : EpReach s → EpReach (epStep op s)

/-- Concrete endpoint state used by witnesses: user aio 4 posted, one pipe
waiting, receive maximum 9. -/
def epW6 : EpState :=
  { closed := false, started := true, rcvmax := 9, useraio := some 4,
    negopipes := [], waitpipes := [⟨2, 0⟩], busypipes := [] }

/-- Concrete listener endpoint state used by witnesses: user aio 1 posted,
no pipes. -/
def epW7 : EpState :=
  { closed := false, started := true, rcvmax := 0, useraio := some 1,
    negopipes := [], waitpipes := [], busypipes := [] }

/-! ### Send queue callback (`tlstran_pipe_send_cb`, lines 297-340) -/

/-- What the send callback does next: resubmit the remaining iov of the same
transfer, start the transfer for the next queued message, or start nothing. -/
inductive SendAct where
  | resubmit
  | startNext (iov : List (List Nat))
  | none_
deriving DecidableEq

/-- Body of `tlstran_pipe_send_cb` given the tx aio result `rv`, the iov
bytes still unsent after `nni_aio_iov_advance`, and the send queue.  On error
the head aio is removed and failed with `rv` and nothing is resubmitted; on a
partial transfer the same transfer is resubmitted; on completion the head is
removed and finished with the body length, and `tlstran_pipe_send_start` runs
on the remaining queue.  Completions are `(aio, rv, byte count)` triples.
`none` models the callback firing with an empty queue (it would dereference a
null list head). -/
def tlstran_pipe_send_cb (rv remaining : Nat) (sendq : List (Nat × Msg)) :
    Option (List (Nat × Msg) × List (Nat × Nat × Nat) × SendAct) :=
  match sendq with
  | [] => none
  | (a, m) :: rest =>
    if rv ≠ 0 then some (rest, [(a, rv, 0)], SendAct.none_)
    else if 0 < remaining then some ((a, m) :: rest, [], SendAct.resubmit)
    else
      match tlstran_pipe_send_start rest with
      | some iov => some (rest, [(a, 0, m.body.length)], SendAct.startNext iov)
      | none => some (rest, [(a, 0, m.body.length)], SendAct.none_)

/-! ### Endpoint refcount lifecycle (`tlstran_ep_fini`, `tlstran_pipe_fini`,
`tlstran_pipe_start`; lines 139-160, 601-630, 632-653) -/

/-- The lifecycle fields of an endpoint: the `fini` flag, the refcount of
pipes still back-referencing it, and whether it has been reaped (freed). -/
structure EpLife where
  fini : Bool
  refcnt : Nat
  reaped : Bool
deriving DecidableEq

/-- Body of `tlstran_ep_fini`: sets `fini`; if the refcount is zero the
endpoint is destroyed, otherwise it merely returns. -/
def tlstran_ep_fini (e : EpLife) : EpLife :=
  if e.refcnt = 0 then { e with fini := true, reaped := true }
  else { e with fini := true }

/-- Refcount effect of `tlstran_pipe_fini` on the pipe's endpoint: the
refcount is decremented, and if `fini` is set and the count reaches zero the
endpoint is reaped. -/
def tlstran_pipe_fini (e : EpLife) : EpLife :=
  let e2 : EpLife := { e with refcnt := e.refcnt - 1 }
  if e2.fini ∧ e2.refcnt = 0 then { e2 with reaped := true } else e2

/-- Refcount effect of `tlstran_pipe_start` on the endpoint (line 606):
`ep->refcnt++`. -/
def tlstran_pipe_start (e : EpLife) : EpLife :=
  { e with refcnt := e.refcnt + 1 }

/-! ### Pipe receive machine (`tlstran_pipe_recv`, `tlstran_pipe_recv_start`,
`tlstran_pipe_recv_cb`; lines 342-440, 554-591)

The C code distinguishes a frame-header read from a body read by whether
`p->rxmsg` is null; the model additionally records in `phase` whether a
stream read is outstanding on the rx aio, so that callback events are only
meaningful when one is. -/

/-- Which stream read, if any, is outstanding on the rx aio. -/
inductive RxPhase where
  | idle
  | header
  | body
deriving DecidableEq

/-- The receive-side fields of a pipe: its `rcvmax`, the partially received
message (`rxmsg`, modelled by its allocated length), the queue of user recv
aios, and the outstanding-read phase. -/
structure RxState where
  rcvmax : Nat
  rxmsg : Option Nat
  recvq : List Nat
  phase : RxPhase
deriving DecidableEq

/-- A completion of a user recv aio: result `rv` and the delivered message
length, `none` on error. -/
structure RxComp where
  aio : Nat
  rv : Nat
  msg : Option Nat
deriving DecidableEq

/-- Body of `tlstran_pipe_recv_start` (lines 554-568): asserts
`p->rxmsg == NULL` (`none` models the assertion firing) and schedules the
8-byte frame-header read. -/
def tlstran_pipe_recv_start (s : RxState) : Option RxState :=
  if s.rxmsg.isSome then none
  else some { s with phase := RxPhase.header }

/-- Body of `tlstran_pipe_recv` (lines 570-591): appends the user aio to the
recv queue and, if it became the head, starts the header read. -/
def tlstran_pipe_recv (s : RxState) (aio : Nat) : Option (RxState × List RxComp) :=
  if s.recvq = [] then
    (tlstran_pipe_recv_start { s with recvq := [aio] }).map (fun t => (t, []))
  else some ({ s with recvq := s.recvq ++ [aio] }, [])

/-- The `recv_error` arm of `tlstran_pipe_recv_cb` (lines 430-440): the head
aio is removed and failed with `rv`, the partial message is freed, and
deliberately no further read is started. -/
def tlstran_recv_error (s : RxState) (rv : Nat) : RxState × List RxComp :=
  match s.recvq with
  | a :: rest =>
    ({ s with recvq := rest, rxmsg := none, phase := RxPhase.idle }, [⟨a, rv, none⟩])
  | [] => ({ s with rxmsg := none, phase := RxPhase.idle }, [])

/-- The delivery tail of `tlstran_pipe_recv_cb` (lines 415-428): the head aio
is removed, the completed message (of the allocated length) is handed to it
with result 0, and if more recv aios are queued the next header read starts. -/
def tlstran_recv_deliver (s : RxState) : Option (RxState × List RxComp) :=
  match s.recvq, s.rxmsg with
  | a :: rest, some len =>
    let s2 : RxState := { s with recvq := rest, rxmsg := none, phase := RxPhase.idle }
    if rest = [] then some (s2, [⟨a, 0, some len⟩])
    else (tlstran_pipe_recv_start s2).map (fun t => (t, [⟨a, 0, some len⟩]))
  | _, _ => some (s, [])

/-- Events driving the receive side: a user recv post, and the rx aio
callback firing with an error, a partial transfer, or a complete transfer
(carrying the 8 header bytes when a header read was outstanding). -/
inductive RxEvent where
  | userRecv (aio : Nat)
  | cbFail (rv : Nat)
  | cbShortRead
  | cbDone (bytes : List Nat)

/-- One step of the receive side.  `cbDone` follows `tlstran_pipe_recv_cb`:
with `p->rxmsg == NULL` the 8 bytes just read are the frame header, whose
big-endian value is checked against `rcvmax` (positive `rcvmax` only) and
then allocated; a non-empty body is read next, an empty one is delivered at
once; with `p->rxmsg` present the body read finished and the message is
delivered.  Callback events in the idle phase cannot occur and leave the
state unchanged. -/
def rxStep (e : RxEvent) (s : RxState) : Option (RxState × List RxComp) :=
  match e with
  | RxEvent.userRecv aio => tlstran_pipe_recv s aio
  | RxEvent.cbFail rv =>
    if s.phase = RxPhase.idle then some (s, []) else some (tlstran_recv_error s rv)
  | RxEvent.cbShortRead => some (s, [])
  | RxEvent.cbDone bytes =>
    if s.phase = RxPhase.idle then some (s, [])
    else if s.rxmsg = none then
      if NNI_GET64 bytes > s.rcvmax ∧ 0 < s.rcvmax then
        some (tlstran_recv_error s NNG_EMSGSIZE)
      else if NNI_GET64 bytes ≠ 0 then
        some ({ s with rxmsg := some (NNI_GET64 bytes), phase := RxPhase.body }, [])
      else
        tlstran_recv_deliver { s with rxmsg := some 0 }
    else tlstran_recv_deliver s

/-- The receive side of a fresh pipe with receive maximum `m` (after
`tlstran_ep_match` copied it over): no partial message, empty queue, no
outstanding read. -/
def rxInit (m : Nat) : RxState :=
  { rcvmax := m, rxmsg := none, recvq := [], phase := RxPhase.idle }

/-- Run of the receive machine over an event list; `none` once any step hits
the `tlstran_pipe_recv_start` assertion. -/
def rxRun : RxState → List RxEvent → Option RxState
  | s, [] => some s
  | s, e :: es => (rxStep e s).bind (fun r => rxRun r.1 es)

/-- The invariant tying `rxmsg` to the outstanding read: the message slot is
occupied only during a body read, and any outstanding read has a queued user
aio waiting for it. -/
def RxInv (s : RxState) : Prop :=
  (s.rxmsg.isSome = true → s.phase = RxPhase.body) ∧
  (s.phase ≠ RxPhase.idle → s.recvq ≠ [])

/-! ## Theorems -/

/-- Big-endian 64-bit encode/decode round-trip for values that fit. -/
theorem get64_put64 (n : Nat) (hn : n < 2 ^ 64) : NNI_GET64 (NNI_PUT64 n) = n := by
  simp only [NNI_GET64, NNI_PUT64, List.foldl]
  omega

/-- Claim C1: once all 8 negotiation header bytes are sent and received, the check
succeeds iff bytes 0, 1, 2, 3, 6, 7 are exactly `0, 'S', 'P', 0, 0, 0`; on
success the peer protocol id is the big-endian word at positions 4-5, and on
any mismatch the result is `NNG_EPROTO`. -/
theorem nego_check_correct (b0 b1 b2 b3 b4 b5 b6 b7 peer : Nat) :
    (tlstran_nego_check b0 b1 b2 b3 b4 b5 b6 b7 = Except.ok peer ↔
      (b0 = 0 ∧ b1 = 83 ∧ b2 = 80 ∧ b3 = 0 ∧ b6 = 0 ∧ b7 = 0 ∧
        peer = b4 * 256 + b5)) ∧
    (¬(b0 = 0 ∧ b1 = 83 ∧ b2 = 80 ∧ b3 = 0 ∧ b6 = 0 ∧ b7 = 0) →
      tlstran_nego_check b0 b1 b2 b3 b4 b5 b6 b7 = Except.error NNG_EPROTO) := by
  unfold tlstran_nego_check NNI_GET16
  by_cases h : b0 = 0 ∧ b1 = 83 ∧ b2 = 80 ∧ b3 = 0 ∧ b6 = 0 ∧ b7 = 0
  · obtain ⟨h0, h1, h2, h3, h6, h7⟩ := h
    subst h0 h1 h2 h3 h6 h7
    simp [eq_comm]
  · have hor : b0 ≠ 0 ∨ b1 ≠ 83 ∨ b2 ≠ 80 ∨ b3 ≠ 0 ∨ b6 ≠ 0 ∨ b7 ≠ 0 := by
      tauto
    rw [if_pos hor]
    refine ⟨⟨fun he => by simp at he, fun hc => absurd
      ⟨hc.1, hc.2.1, hc.2.2.1, hc.2.2.2.1, hc.2.2.2.2.1, hc.2.2.2.2.2.1⟩ h⟩,
      fun _ => rfl⟩

/-- Witness for C1 at a concrete accepted header and a concrete rejected
one. -/
theorem nego_check_correct_witness :
    tlstran_nego_check 0 83 80 0 1 2 0 0 = Except.ok 258 ∧
    tlstran_nego_check 9 83 80 0 1 2 0 0 = Except.error NNG_EPROTO :=
  ⟨(nego_check_correct 0 83 80 0 1 2 0 0 258).1.mpr (by norm_num),
    (nego_check_correct 9 83 80 0 1 2 0 0 258).2 (by norm_num)⟩

/-- Claim C4: for the message at the head of the send queue, the single
scatter-gather transfer consists of the 8-byte big-endian prefix carrying
`header length + body length`, then the header iov if non-empty, then the
body iov if non-empty; with an empty queue no transfer starts. -/
theorem send_start_framing (h b : List Nat) (a : Nat) (rest : List (Nat × Msg)) :
    tlstran_pipe_send_start ((a, ⟨h, b⟩) :: rest) =
      some ([NNI_PUT64 (h.length + b.length)] ++
        (if 0 < h.length then [h] else []) ++
        (if 0 < b.length then [b] else [])) ∧
    (NNI_PUT64 (h.length + b.length)).length = 8 ∧
    (h.length + b.length < 2 ^ 64 →
      NNI_GET64 (NNI_PUT64 (h.length + b.length)) = h.length + b.length) ∧
    tlstran_pipe_send_start [] = none := by
  refine ⟨?_, by simp [NNI_PUT64], fun hlt => get64_put64 _ hlt, rfl⟩
  simp [tlstran_pipe_send_start, Nat.add_comm b.length h.length]

/-- Witness for C4 at a concrete one-byte header and two-byte body. -/
theorem send_start_framing_witness :
    tlstran_pipe_send_start [(0, ⟨[7], [8, 9]⟩)] =
      some [NNI_PUT64 3, [7], [8, 9]] ∧
    NNI_GET64 (NNI_PUT64 3) = 3 := by
  have h := send_start_framing [7] [8, 9] 0 []
  refine ⟨?_, h.2.2.1 (by norm_num)⟩
  simpa using h.1

/-- Claim C6: the match operation is a no-op unless a user aio is posted and the
waiting list is non-empty; when both hold the oldest waiting pipe moves to
the end of the busy list carrying the endpoint's `rcvmax`, the user slot is
cleared, and the user aio completes successfully with the pipe in output
slot 0. -/
theorem ep_match_correct (ep : EpState) :
    (ep.useraio = none ∨ ep.waitpipes = [] → tlstran_ep_match ep = (ep, [])) ∧
    (∀ a p rest, ep.useraio = some a → ep.waitpipes = p :: rest →
      tlstran_ep_match ep =
        ({ ep with
            waitpipes := rest,
            busypipes := ep.busypipes ++ [{ p with rcvmax := ep.rcvmax }],
            useraio := none },
          [⟨a, 0, some { p with rcvmax := ep.rcvmax }⟩])) := by
  constructor
  · intro hcase
    rcases hcase with hu | hw
    · simp [tlstran_ep_match, hu]
    · rcases hu : ep.useraio with _ | a <;> simp [tlstran_ep_match, hu, hw]
  · intro a p rest hu hw
    simp [tlstran_ep_match, hu, hw]

/-- Witness for C6: a waiting pipe is matched to a posted user aio, picking
up the endpoint receive maximum. -/
theorem ep_match_correct_witness :
    epW6.useraio = some 4 ∧ epW6.waitpipes = [⟨2, 0⟩] ∧
    tlstran_ep_match epW6 =
      ({ epW6 with waitpipes := [], busypipes := [⟨2, 9⟩], useraio := none },
        [⟨4, 0, some ⟨2, 9⟩⟩]) := by
  have h := (ep_match_correct epW6).2 4 ⟨2, 0⟩ [] rfl rfl
  exact ⟨rfl, rfl, h⟩

/-- Claim C3: when the negotiation aio fails, a generic `NNG_ECLOSED` is surfaced
to the posted user aio as `NNG_ECONNSHUT`, while every other error code is
surfaced unchanged. -/
theorem nego_error_surfaced (ep : EpState) (p : EpPipe) (rv u : Nat)
    (hu : ep.useraio = some u) :
    (rv = NNG_ECLOSED →
      tlstran_nego_error ep p rv =
        ({ ep with negopipes := ep.negopipes.erase p, useraio := none },
          [⟨u, NNG_ECONNSHUT, none⟩])) ∧
    (rv ≠ NNG_ECLOSED →
      tlstran_nego_error ep p rv =
        ({ ep with negopipes := ep.negopipes.erase p, useraio := none },
          [⟨u, rv, none⟩])) := by
  constructor <;> intro hrv <;> simp [tlstran_nego_error, hu, hrv]

/-- Witness for C3: a closed-stream negotiation failure surfaces as
`NNG_ECONNSHUT`, a protocol failure surfaces unchanged. -/
theorem nego_error_surfaced_witness :
    epW6.useraio = some 4 ∧
    (tlstran_nego_error epW6 ⟨3, 0⟩ NNG_ECLOSED).2 = [⟨4, NNG_ECONNSHUT, none⟩] ∧
    (tlstran_nego_error epW6 ⟨3, 0⟩ NNG_EPROTO).2 = [⟨4, NNG_EPROTO, none⟩] := by
  refine ⟨rfl, ?_, ?_⟩
  · rw [(nego_error_surfaced epW6 ⟨3, 0⟩ NNG_ECLOSED 4 rfl).1 rfl]
  · rw [(nego_error_surfaced epW6 ⟨3, 0⟩ NNG_EPROTO 4 rfl).2 (by decide)]

/-- Counterexample to C7 as stated: on an `NNG_ENOMEM` accept failure the
backoff is armed, yet the pending user aio is still completed with the error
— the error is surfaced to the consumer, not hidden. -/
theorem accept_error_not_silent :
    (tlstran_accept_error epW7 NNG_ENOMEM).2.1 = [⟨1, NNG_ENOMEM, none⟩] ∧
    (tlstran_accept_error epW7 NNG_ENOMEM).2.2 = AcceptAct.backoff10ms :=
  ⟨rfl, rfl⟩

/-- Claim C7 (amended): every accept failure first completes the pending user aio
(if any) with the unmapped error; `NNG_ENOMEM`/`NNG_ENOFILES` then arm the
10 ms sleep aio, whose successful completion reposts the accept, and every
other error reposts the accept immediately unless the endpoint is closed. -/
theorem accept_error_policy (ep : EpState) (rv : Nat) :
    (∀ u, ep.useraio = some u →
      (tlstran_accept_error ep rv).1 = { ep with useraio := none } ∧
      (tlstran_accept_error ep rv).2.1 = [⟨u, rv, none⟩]) ∧
    (ep.useraio = none →
      (tlstran_accept_error ep rv).1 = ep ∧
      (tlstran_accept_error ep rv).2.1 = []) ∧
    ((rv = NNG_ENOMEM ∨ rv = NNG_ENOFILES) →
      (tlstran_accept_error ep rv).2.2 = AcceptAct.backoff10ms) ∧
    (rv ≠ NNG_ENOMEM → rv ≠ NNG_ENOFILES → ep.closed = false →
      (tlstran_accept_error ep rv).2.2 = AcceptAct.repostAccept) ∧
    (rv ≠ NNG_ENOMEM → rv ≠ NNG_ENOFILES → ep.closed = true →
      (tlstran_accept_error ep rv).2.2 = AcceptAct.idle) ∧
    tlstran_timer_cb 0 = true ∧ (∀ rv2, rv2 ≠ 0 → tlstran_timer_cb rv2 = false) := by
  refine ⟨?_, ?_, ?_, ?_, ?_, rfl, ?_⟩
  · intro u hu
    simp [tlstran_accept_error, hu]
  · intro hu
    simp [tlstran_accept_error, hu]
  · intro hrv
    rcases hu : ep.useraio with _ | u <;> simp [tlstran_accept_error, hu, hrv]
  · intro h1 h2 hcl
    rcases hu : ep.useraio with _ | u <;>
      simp [tlstran_accept_error, hu, h1, h2, hcl]
  · intro h1 h2 hcl
    rcases hu : ep.useraio with _ | u <;>
      simp [tlstran_accept_error, hu, h1, h2, hcl]
  · intro rv2 h2
    simp [tlstran_timer_cb, h2]

/-- Witness for C7 (amended) at a concrete `NNG_ENOFILES` failure with a
pending user aio. -/
theorem accept_error_policy_witness :
    epW7.useraio = some 1 ∧
    (tlstran_accept_error epW7 NNG_ENOFILES).2.1 = [⟨1, NNG_ENOFILES, none⟩] ∧
    (tlstran_accept_error epW7 NNG_ENOFILES).2.2 = AcceptAct.backoff10ms := by
  have h := accept_error_policy epW7 NNG_ENOFILES
  exact ⟨rfl, (h.1 1 rfl).2, h.2.2.1 (Or.inr rfl)⟩

/-- Claim C8: with the queue headed by `(a, m)`, a failed transmit removes the head
and completes it with the error and starts nothing further; a completed
transmit removes the head, completes it with the body length, and immediately
starts the transfer for the next queued message when one exists. -/
theorem send_cb_queue_policy (rv remaining a : Nat) (m : Msg)
    (rest : List (Nat × Msg)) :
    (rv ≠ 0 →
      tlstran_pipe_send_cb rv remaining ((a, m) :: rest) =
        some (rest, [(a, rv, 0)], SendAct.none_)) ∧
    (rv = 0 → remaining = 0 → rest ≠ [] →
      ∃ iov, tlstran_pipe_send_start rest = some iov ∧
        tlstran_pipe_send_cb rv remaining ((a, m) :: rest) =
          some (rest, [(a, 0, m.body.length)], SendAct.startNext iov)) ∧
    (rv = 0 → remaining = 0 → rest = [] →
      tlstran_pipe_send_cb rv remaining ((a, m) :: rest) =
        some ([], [(a, 0, m.body.length)], SendAct.none_)) := by
  refine ⟨?_, ?_, ?_⟩
  · intro hrv
    simp [tlstran_pipe_send_cb, hrv]
  · intro hrv hrem hrest
    rcases hq : rest with _ | ⟨⟨a2, m2⟩, rest2⟩
    · exact absurd hq hrest
    · subst hrv hrem
      refine ⟨_, rfl, ?_⟩
      simp [tlstran_pipe_send_cb, tlstran_pipe_send_start]
  · intro hrv hrem hrest
    subst hrv hrem hrest
    simp [tlstran_pipe_send_cb, tlstran_pipe_send_start]

/-- Witness for C8: a failed transmit at the head of a two-element queue and
a successful one that starts the next transfer. -/
theorem send_cb_queue_policy_witness :
    tlstran_pipe_send_cb 5 0 [(3, ⟨[], [1]⟩)] =
      some ([], [(3, 5, 0)], SendAct.none_) ∧
    ∃ iov, tlstran_pipe_send_start [(4, ⟨[], [2]⟩)] = some iov ∧
      tlstran_pipe_send_cb 0 0 [(3, ⟨[], [1]⟩), (4, ⟨[], [2]⟩)] =
        some ([(4, ⟨[], [2]⟩)], [(3, 0, 1)], SendAct.startNext iov) := by
  constructor
  · exact (send_cb_queue_policy 5 0 3 ⟨[], [1]⟩ []).1 (by norm_num)
  · exact (send_cb_queue_policy 0 0 3 ⟨[], [1]⟩ [(4, ⟨[], [2]⟩)]).2.1 rfl rfl
      (by simp)

/-- Claim C9: endpoint fini with no live pipes reaps the endpoint at once;
endpoint fini with live pipes only sets the `fini` flag; the pipe fini that
drops the refcount of a fini-marked endpoint to zero reaps it, and any other
pipe fini merely decrements; pipe start increments the refcount. -/
theorem ep_refcnt_lifecycle (e : EpLife) :
    (e.refcnt = 0 → tlstran_ep_fini e = { e with fini := true, reaped := true }) ∧
    (e.refcnt ≠ 0 → tlstran_ep_fini e = { e with fini := true }) ∧
    (e.fini = true → e.refcnt = 1 →
      tlstran_pipe_fini e = { e with refcnt := 0, reaped := true }) ∧
    (0 < e.refcnt → ¬(e.fini = true ∧ e.refcnt = 1) →
      tlstran_pipe_fini e = { e with refcnt := e.refcnt - 1 }) ∧
    (tlstran_pipe_start e).refcnt = e.refcnt + 1 := by
  refine ⟨?_, ?_, ?_, ?_, rfl⟩
  · intro h
    simp [tlstran_ep_fini, h]
  · intro h
    simp [tlstran_ep_fini, h]
  · intro hf h1
    simp [tlstran_pipe_fini, hf, h1]
  · intro hpos hne
    rcases hf : e.fini with _ | _
    · simp [tlstran_pipe_fini, hf]
    · have : e.refcnt ≠ 1 := fun h1 => hne ⟨hf, h1⟩
      have : e.refcnt - 1 ≠ 0 := by omega
      simp [tlstran_pipe_fini, hf, this]

/-- Witness for C9 at concrete lifecycle states. -/
theorem ep_refcnt_lifecycle_witness :
    tlstran_ep_fini ⟨false, 0, false⟩ = ⟨true, 0, true⟩ ∧
    tlstran_ep_fini ⟨false, 2, false⟩ = ⟨true, 2, false⟩ ∧
    tlstran_pipe_fini ⟨true, 1, false⟩ = ⟨true, 0, true⟩ ∧
    tlstran_pipe_fini ⟨true, 3, false⟩ = ⟨true, 2, false⟩ ∧
    (tlstran_pipe_start ⟨false, 1, false⟩).refcnt = 2 :=
  ⟨(ep_refcnt_lifecycle ⟨false, 0, false⟩).1 rfl,
    (ep_refcnt_lifecycle ⟨false, 2, false⟩).2.1 (by norm_num),
    (ep_refcnt_lifecycle ⟨true, 1, false⟩).2.2.1 rfl rfl,
    (ep_refcnt_lifecycle ⟨true, 3, false⟩).2.2.2.1 (by norm_num) (by norm_num),
    (ep_refcnt_lifecycle ⟨false, 1, false⟩).2.2.2.2⟩

/-- The matcher never changes the `closed` flag and only ever clears the
user slot. -/
theorem ep_match_fields (ep : EpState) :
    (tlstran_ep_match ep).1.closed = ep.closed ∧
    ((tlstran_ep_match ep).1.useraio = none ∨
      (tlstran_ep_match ep).1.useraio = ep.useraio) := by
  rcases hu : ep.useraio with _ | a
  · simp [tlstran_ep_match, hu]
  · rcases hw : ep.waitpipes with _ | ⟨p, rest⟩ <;> simp [tlstran_ep_match, hu, hw]

/-- Every modelled endpoint operation preserves the property that a closed
endpoint has no posted user aio. -/
theorem epStep_closed_inv (op : EpOp) (s : EpState)
    (ih : s.closed = true → s.useraio = none) :
    (epStep op s).closed = true → (epStep op s).useraio = none := by
  cases op with
  | connect a =>
    by_cases hc : s.closed = true
    · simp [epStep, tlstran_ep_connect, hc, ih hc]
    · rcases hu : s.useraio with _ | u <;>
        simp [epStep, tlstran_ep_connect, hc, hu]
  | accept a =>
    by_cases hc : s.closed = true
    · simp [epStep, tlstran_ep_accept, hc, ih hc]
    · have hcb : s.closed = false := by simpa using hc
      rcases hu : s.useraio with _ | u
      · by_cases hst : s.started = true
        · simp [epStep, tlstran_ep_accept, hcb, hu, hst]
          intro hcl
          rw [(ep_match_fields _).1] at hcl
          simp at hcl
        · simp [epStep, tlstran_ep_accept, hcb, hu, hst]
      · simp [epStep, tlstran_ep_accept, hcb, hu]
  | close =>
    rcases hu : s.useraio with _ | u <;> simp [epStep, tlstran_ep_close, hu]
  | cancel a rv =>
    by_cases hu : s.useraio = some a
    · simp [epStep, tlstran_ep_cancel, hu]
    · simpa [epStep, tlstran_ep_cancel, hu] using ih
  | negoSuccess p =>
    intro hcl
    have hcs : s.closed = true := by
      rw [epStep, tlstran_nego_success, (ep_match_fields _).1] at hcl
      simpa using hcl
    have hun : s.useraio = none := ih hcs
    simp [epStep, tlstran_nego_success, tlstran_ep_match, hun]
  | negoFail p rv =>
    rcases hu : s.useraio with _ | u
    · simp [epStep, tlstran_nego_error, hu]
    · simp [epStep, tlstran_nego_error, hu]
  | acceptFail rv =>
    rcases hu : s.useraio with _ | u
    · simp [epStep, tlstran_accept_error, hu]
    · simp [epStep, tlstran_accept_error, hu]
  | acceptDone p =>
    simpa [epStep, tlstran_pipe_start_ep] using ih

/-- Reachability invariant: a closed endpoint has no posted user aio. -/
theorem ep_closed_useraio {s : EpState} (h : EpReach s) :
    s.closed = true → s.useraio = none := by
  induction h with
  | init m => intro _; rfl
  | step op hr ih => exact epStep_closed_inv op _ ih

/-- Claim C5: on any reachable endpoint state whose user slot is occupied, posting
another connect or accept completes the new aio with `NNG_EBUSY` and leaves
the state — including the posted user aio — unchanged. -/
theorem ep_busy_second_post {s : EpState} (u a : Nat) (hr : EpReach s)
    (hu : s.useraio = some u) :
    tlstran_ep_connect s a = (s, [⟨a, NNG_EBUSY, none⟩]) ∧
    tlstran_ep_accept s a = (s, [⟨a, NNG_EBUSY, none⟩]) := by
  have hcl : s.closed = false := by
    cases hc : s.closed
    · rfl
    · rw [ep_closed_useraio hr hc] at hu
      cases hu
  constructor
  · simp [tlstran_ep_connect, hcl, hu]
  · simp [tlstran_ep_accept, hcl, hu]

/-- Witness for C5: after one connect post on a fresh endpoint, a second
connect and a second accept both fail busy without touching the state. -/
theorem ep_busy_second_post_witness :
    (epStep (EpOp.connect 1) (epInit 0)).useraio = some 1 ∧
    tlstran_ep_connect (epStep (EpOp.connect 1) (epInit 0)) 2 =
      (epStep (EpOp.connect 1) (epInit 0), [⟨2, NNG_EBUSY, none⟩]) ∧
    tlstran_ep_accept (epStep (EpOp.connect 1) (epInit 0)) 2 =
      (epStep (EpOp.connect 1) (epInit 0), [⟨2, NNG_EBUSY, none⟩]) := by
  have hr : EpReach (epStep (EpOp.connect 1) (epInit 0)) :=
    EpReach.step (EpOp.connect 1) (EpReach.init 0)
  have h := ep_busy_second_post 1 2 hr rfl
  exact ⟨rfl, h.1, h.2⟩

/-- Claim C2: once the 8 length bytes are fully read and decode big-endian to `L`,
a frame with `L > rcvmax` on a pipe with positive `rcvmax` fails the user
recv aio with `NNG_EMSGSIZE` and delivers no message; otherwise — `L` equal
to `rcvmax` and `L = 0` included — a message of exactly `L` bytes is
allocated and, once its body is read, delivered to the user aio. -/
theorem recv_frame_size_policy (bytes : List Nat) (m a len : Nat)
    (rest : List Nat) (hlen : NNI_GET64 bytes = len) :
    (len > m ∧ 0 < m →
      rxStep (RxEvent.cbDone bytes) ⟨m, none, a :: rest, RxPhase.header⟩ =
        some (⟨m, none, rest, RxPhase.idle⟩, [⟨a, NNG_EMSGSIZE, none⟩])) ∧
    (¬(len > m ∧ 0 < m) → len ≠ 0 →
      rxStep (RxEvent.cbDone bytes) ⟨m, none, a :: rest, RxPhase.header⟩ =
        some (⟨m, some len, a :: rest, RxPhase.body⟩, []) ∧
      ∀ bytes2, ∃ t,
        rxStep (RxEvent.cbDone bytes2) ⟨m, some len, a :: rest, RxPhase.body⟩ =
          some (t, [⟨a, 0, some len⟩])) ∧
    (¬(len > m ∧ 0 < m) → len = 0 →
      ∃ t, rxStep (RxEvent.cbDone bytes) ⟨m, none, a :: rest, RxPhase.header⟩ =
        some (t, [⟨a, 0, some 0⟩])) := by
  refine ⟨?_, ?_, ?_⟩
  · intro hbig
    simp [rxStep, hlen, hbig, tlstran_recv_error]
  · intro hok hnz
    constructor
    · simp [rxStep, hlen, hok, hnz]
    · intro bytes2
      rcases hr : rest with _ | ⟨q, qs⟩
      · exact ⟨⟨m, none, [], RxPhase.idle⟩, by simp [rxStep, tlstran_recv_deliver]⟩
      · exact ⟨⟨m, none, q :: qs, RxPhase.header⟩,
          by simp [rxStep, tlstran_recv_deliver, tlstran_pipe_recv_start]⟩
  · intro hok hz
    subst hz
    rcases hr : rest with _ | ⟨q, qs⟩
    · exact ⟨⟨m, none, [], RxPhase.idle⟩,
        by simp [rxStep, hlen, hok, tlstran_recv_deliver]⟩
    · exact ⟨⟨m, none, q :: qs, RxPhase.header⟩,
        by simp [rxStep, hlen, hok, tlstran_recv_deliver, tlstran_pipe_recv_start]⟩

/-- Witness for C2: a frame of exactly `rcvmax = 5` bytes is accepted and
delivered, one of 6 bytes is rejected with `NNG_EMSGSIZE`. -/
theorem recv_frame_size_policy_witness :
    NNI_GET64 [0, 0, 0, 0, 0, 0, 0, 5] = 5 ∧
    rxStep (RxEvent.cbDone [0, 0, 0, 0, 0, 0, 0, 5])
        ⟨5, none, [1], RxPhase.header⟩ =
      some (⟨5, some 5, [1], RxPhase.body⟩, []) ∧
    (∃ t, rxStep (RxEvent.cbDone [])
        ⟨5, some 5, [1], RxPhase.body⟩ = some (t, [⟨1, 0, some 5⟩])) ∧
    rxStep (RxEvent.cbDone [0, 0, 0, 0, 0, 0, 0, 6])
        ⟨5, none, [1], RxPhase.header⟩ =
      some (⟨5, none, [], RxPhase.idle⟩, [⟨1, NNG_EMSGSIZE, none⟩]) := by
  have h5 := recv_frame_size_policy [0, 0, 0, 0, 0, 0, 0, 5] 5 1 5 [] (by decide)
  have h6 := recv_frame_size_policy [0, 0, 0, 0, 0, 0, 0, 6] 5 1 6 [] (by decide)
  have hmid := h5.2.1 (by decide) (by decide)
  exact ⟨by decide, hmid.1, hmid.2 [], h6.1 (by decide)⟩

/-- One receive step from a state satisfying `RxInv` never trips the
`tlstran_pipe_recv_start` assertion and preserves `RxInv`. -/
theorem rxStep_total_inv (e : RxEvent) (s : RxState) (hs : RxInv s) :
    ∃ t c, rxStep e s = some (t, c) ∧ RxInv t := by
  obtain ⟨h1, h2⟩ := hs
  cases e with
  | userRecv aio =>
    by_cases hq : s.recvq = []
    · have hph : s.phase = RxPhase.idle := by
        by_contra hph
        exact h2 hph hq
      have hmsg : s.rxmsg = none := by
        rcases hm : s.rxmsg with _ | len
        · rfl
        · have := h1 (by simp [hm])
          rw [this] at hph
          simp at hph
      refine ⟨{ s with recvq := [aio], phase := RxPhase.header }, [], ?_, ?_⟩
      · simp [rxStep, tlstran_pipe_recv, hq, tlstran_pipe_recv_start, hmsg]
      · exact ⟨by simp [hmsg], by simp⟩
    · refine ⟨{ s with recvq := s.recvq ++ [aio] }, [], ?_, ?_⟩
      · simp [rxStep, tlstran_pipe_recv, hq]
      · exact ⟨fun h => h1 h, by simp [hq]⟩
  | cbFail rv =>
    by_cases hph : s.phase = RxPhase.idle
    · exact ⟨s, [], by simp [rxStep, hph], h1, h2⟩
    · rcases hq : s.recvq with _ | ⟨a, rest⟩
      · exact absurd hq (h2 hph)
      · refine ⟨{ s with recvq := rest, rxmsg := none, phase := RxPhase.idle },
          [⟨a, rv, none⟩], ?_, by simp, by simp⟩
        simp [rxStep, hph, tlstran_recv_error, hq]
  | cbShortRead =>
    exact ⟨s, [], by simp [rxStep], h1, h2⟩
  | cbDone bytes =>
    by_cases hph : s.phase = RxPhase.idle
    · exact ⟨s, [], by simp [rxStep, hph], h1, h2⟩
    · rcases hq : s.recvq with _ | ⟨a, rest⟩
      · exact absurd hq (h2 hph)
      · rcases hm : s.rxmsg with _ | len
        · by_cases hbig : NNI_GET64 bytes > s.rcvmax ∧ 0 < s.rcvmax
          · refine ⟨{ s with recvq := rest, rxmsg := none, phase := RxPhase.idle },
              [⟨a, NNG_EMSGSIZE, none⟩], ?_, by simp, by simp⟩
            simp [rxStep, hph, hm, hbig, tlstran_recv_error, hq]
          · by_cases hz : NNI_GET64 bytes = 0
            · rcases hr : rest with _ | ⟨q, qs⟩
              · refine ⟨{ s with recvq := [], rxmsg := none, phase := RxPhase.idle },
                  [⟨a, 0, some 0⟩], ?_, by simp, by simp⟩
                simp [rxStep, hph, hm, hbig, hz, tlstran_recv_deliver, hq, hr]
              · refine ⟨{ s with recvq := q :: qs, rxmsg := none, phase := RxPhase.header }, [⟨a, 0, some 0⟩], ?_, by simp, by simp⟩
                simp [rxStep, hph, hm, hbig, hz, tlstran_recv_deliver, hq, hr,
                  tlstran_pipe_recv_start]
            · refine ⟨{ s with rxmsg := some (NNI_GET64 bytes), phase := RxPhase.body }, [], ?_, by simp, by simp [hq]⟩
              simp [rxStep, hph, hm, hbig, hz]
        · rcases hr : rest with _ | ⟨q, qs⟩
          · refine ⟨{ s with recvq := [], rxmsg := none, phase := RxPhase.idle },
              [⟨a, 0, some len⟩], ?_, by simp, by simp⟩
            simp [rxStep, hph, hm, tlstran_recv_deliver, hq, hr]
          · refine ⟨{ s with recvq := q :: qs, rxmsg := none, phase := RxPhase.header }, [⟨a, 0, some len⟩], ?_, by simp, by simp⟩
            simp [rxStep, hph, hm, tlstran_recv_deliver, hq, hr,
              tlstran_pipe_recv_start]

/-- A run of the receive machine from any `RxInv` state completes without
tripping the assertion and ends in an `RxInv` state. -/
theorem rxRun_inv (es : List RxEvent) :
    ∀ s : RxState, RxInv s → ∃ t, rxRun s es = some t ∧ RxInv t := by
  induction es with
  | nil => exact fun s hs => ⟨s, rfl, hs⟩
  | cons e es ih =>
    intro s hs
    obtain ⟨t, c, hstep, ht⟩ := rxStep_total_inv e s hs
    obtain ⟨u, hrun, hu⟩ := ih t ht
    exact ⟨u, by simp [rxRun, hstep, hrun], hu⟩

/-- Claim C10: on every event sequence from a fresh pipe, whenever a frame-header
read is started the partial-message slot `rxmsg` is empty; the
`tlstran_pipe_recv_start` assertion can never fire. -/
theorem recv_start_assertion_safe (m : Nat) (es : List RxEvent) :
    (rxRun (rxInit m) es).isSome = true := by
  obtain ⟨t, hrun, _⟩ := rxRun_inv es (rxInit m) ⟨by simp [rxInit], by simp [rxInit]⟩
  simp [hrun]

end NngTls
